import Mathlib

/-! Branch_Prediction: the summation kernels of `BranchPrediction.cpp`.

A shallow embedding of the ten benchmark functions of `src/BranchPrediction.cpp`.

* `int` values are integers kept in `[-2^31, 2^31)` by `wrap32`;
* the `long long` accumulator is an integer kept in `[-2^63, 2^63)` by `wrap64`;
* the data array is a `List Int`, the ambient `std::rand()` is a stream `Nat → Int` of draws;
* a `for` loop over the array is a left fold, a `for` loop whose counter is not used by the
  body is an iteration of the body.

The statement `sum += x` is a parameter `acc` of the loop bodies: the program runs them with
`add64`; running them with `addUnbounded` gives the computation over unbounded integers, against
which the absence of wrap-around is stated.
-/

namespace BranchPrediction

/-! ## Machine integers -/

/-- Signed (two-complement) reading of the low 32 bits of an integer. -/
def wrap32 (x : Int) : Int := (x + 2 ^ 31) % 2 ^ 32 - 2 ^ 31

/-- Signed (two-complement) reading of the low 64 bits of an integer. -/
def wrap64 (x : Int) : Int := (x + 2 ^ 63) % 2 ^ 64 - 2 ^ 63

/-- The bit pattern of an `int`, as an unsigned 32-bit number. -/
def toU32 (x : Int) : Nat := (x % 2 ^ 32).toNat

/-- Subtraction `a - b` on `int`. -/
def sub32 (a b : Int) : Int := wrap32 (a - b)

/-- Negation `-a` on `int`. -/
def neg32 (a : Int) : Int := wrap32 (-a)

/-- Shift `a >> k` on `int`: the sign-extending shift (`sar` in the listings of the source). -/
def sar32 (a : Int) (k : Nat) : Int := a >>> k

/-- Complement `~a` on `int`. -/
def not32 (a : Int) : Int := wrap32 (-a - 1)

/-- Conjunction `a & b` on `int`: bitwise and of the two 32-bit patterns. -/
def and32 (a b : Int) : Int := wrap32 ((Nat.land (toU32 a) (toU32 b) : Nat) : Int)

/-- Statement `sum += x` on the `long long` accumulator (`x` is an `int`, sign-extended). -/
def add64 (sum x : Int) : Int := wrap64 (sum + x)

/-- Addition of unbounded integers: `sum += x` on an accumulator that cannot overflow. -/
def addUnbounded (sum x : Int) : Int := sum + x

/-! ## Constants -/

/-- The repeat count, `#define LOOP 10000`. -/
def LOOP : Nat := 10000

/-- The array size, `const unsigned arraySize = 32768;`. -/
def arraySize : Nat := 32768

/-! ## Data generation -/

/-- The generation loop `for (c = 0; c < n; ++c) data[c] = std::rand() % 256;`, where
`rand k` is the value returned by the `k`-th call of `std::rand()` and `%` is the
truncating remainder of C++. -/
def generate (rand : Nat → Int) : Nat → List Int
  | 0 => []
  | c + 1 => generate rand c ++ [Int.tmod (rand c) 256]

/-- Call `std::sort(data, data + arraySize)`: the array sorted ascending (the library routine is
represented by insertion sort; an ascending sort of integers has only one possible result). -/
def sort (data : List Int) : List Int := List.insertionSort (fun a b => a ≤ b) data

/-! ## Loop bodies -/

/-- Shift mask, `int t = (data[c] - 128) >> 31;`. -/
def shiftMask (v : Int) : Int := sar32 (sub32 v 128) 31

/-- Comparison mask, `int t = -(data[c] >= 128);`. -/
def cmpMask (v : Int) : Int := neg32 (if v ≥ 128 then 1 else 0)

/-- Branching body, `if (data[c] >= 128) sum += data[c];`. -/
def branchBody (acc : Int → Int → Int) (sum v : Int) : Int :=
  if v ≥ 128 then acc sum v else sum

/-- Shift-mask body, `int t = (data[c] - 128) >> 31; sum += ~t & data[c];`. -/
def branchlessBody (acc : Int → Int → Int) (sum v : Int) : Int :=
  let t := shiftMask v
  acc sum (and32 (not32 t) v)

/-- Comparison-to-mask body, `int t = -(data[c] >= 128); sum += ~t & data[c];`. -/
def branchlessAltBody (acc : Int → Int → Int) (sum v : Int) : Int :=
  let t := cmpMask v
  acc sum (and32 (not32 t) v)

/-! ## Loop nests -/

/-- Repeat loop outermost:
`for (i = 0; i < R; ++i) for (c = 0; c < arraySize; ++c) body(data[c])`. -/
def repeatOuter {σ : Type} (body : σ → Int → σ) (data : List Int) (R : Nat) (s : σ) : σ :=
  (fun s => data.foldl body s)^[R] s

/-- Repeat loop innermost (loop interchange):
`for (c = 0; c < arraySize; ++c) for (i = 0; i < R; ++i) body(data[c])`. -/
def repeatInner {σ : Type} (body : σ → Int → σ) (data : List Int) (R : Nat) (s : σ) : σ :=
  data.foldl (fun s v => (fun s => body s v)^[R] s) s

/-- Timed loop of `branchRandom` and `branchSorted`. -/
def branchLoop (acc : Int → Int → Int) (data : List Int) (R : Nat) : Int :=
  repeatOuter (branchBody acc) data R 0

/-- Timed loop of `branchlessRandom` and `branchlessSorted`. -/
def branchlessLoop (acc : Int → Int → Int) (data : List Int) (R : Nat) : Int :=
  repeatOuter (branchlessBody acc) data R 0

/-- Timed loop of `branchlessSortedAlt`. -/
def branchlessAltLoop (acc : Int → Int → Int) (data : List Int) (R : Nat) : Int :=
  repeatOuter (branchlessAltBody acc) data R 0

/-- Timed loop of `branchRandomLI` and `branchSortedLI`. -/
def branchLoopLI (acc : Int → Int → Int) (data : List Int) (R : Nat) : Int :=
  repeatInner (branchBody acc) data R 0

/-- Timed loop of `branchlessRandomLI` and `branchlessSortedLI`. -/
def branchlessLoopLI (acc : Int → Int → Int) (data : List Int) (R : Nat) : Int :=
  repeatInner (branchlessBody acc) data R 0

/-- Timed loop of `branchlessSortedAltLI`. -/
def branchlessAltLoopLI (acc : Int → Int → Int) (data : List Int) (R : Nat) : Int :=
  repeatInner (branchlessAltBody acc) data R 0

/-! ## The timed loops with the history of the accumulator -/

/-- The checksum printed by `branchRandom`. -/
def branchRandom (rand : Nat → Int) : Int :=
  branchLoop add64 (generate rand arraySize) LOOP

/-- The checksum printed by `branchSorted`. -/
def branchSorted (rand : Nat → Int) : Int :=
  branchLoop add64 (sort (generate rand arraySize)) LOOP

/-- The checksum printed by `branchlessRandom`. -/
def branchlessRandom (rand : Nat → Int) : Int :=
  branchlessLoop add64 (generate rand arraySize) LOOP

/-- The checksum printed by `branchlessSorted`. -/
def branchlessSorted (rand : Nat → Int) : Int :=
  branchlessLoop add64 (sort (generate rand arraySize)) LOOP

/-- The checksum printed by `branchlessSortedAlt`. -/
def branchlessSortedAlt (rand : Nat → Int) : Int :=
  branchlessAltLoop add64 (sort (generate rand arraySize)) LOOP

/-- The checksum printed by `branchRandomLI`. -/
def branchRandomLI (rand : Nat → Int) : Int :=
  branchLoopLI add64 (generate rand arraySize) LOOP

/-- The checksum printed by `branchSortedLI`. -/
def branchSortedLI (rand : Nat → Int) : Int :=
  branchLoopLI add64 (sort (generate rand arraySize)) LOOP

/-- The checksum printed by `branchlessRandomLI`. -/
def branchlessRandomLI (rand : Nat → Int) : Int :=
  branchlessLoopLI add64 (generate rand arraySize) LOOP

/-- The checksum printed by `branchlessSortedLI`. -/
def branchlessSortedLI (rand : Nat → Int) : Int :=
  branchlessLoopLI add64 (sort (generate rand arraySize)) LOOP

/-- The checksum printed by `branchlessSortedAltLI`. -/
def branchlessSortedAltLI (rand : Nat → Int) : Int :=
  branchlessAltLoopLI add64 (sort (generate rand arraySize)) LOOP

/-! ## Reference quantities of the specification -/

/-- Sum of the elements whose value is at least 128. -/
def sumGE (data : List Int) : Int := (data.filter (fun v => decide (128 ≤ v))).sum

/-- Sum of the elements whose value is below 128. -/
def sumLT (data : List Int) : Int := (data.filter (fun v => decide (v < 128))).sum

/-- The array of the end-to-end scenario. -/
def sample : List Int := [130, 10, 200, 5, 128, 127, 255, 0]

/-- An array made of the largest element value only. -/
def allMax : List Int := [255, 255, 255, 255]

/-- An array of 17,000,000 elements, all equal to 127. -/
def longArray : List Int := List.replicate 17000000 127

/-- A stream of draws for the examples: 0, 7, 14, ... -/
def sevens (k : Nat) : Int := 7 * (k : Int)

/-! ## What one execution of a loop body adds -/

/-- Amount added by `branchBody`. -/
def branchAddend (v : Int) : Int := if v ≥ 128 then v else 0

/-- Amount added by `branchlessBody`. -/
def branchlessAddend (v : Int) : Int := and32 (not32 (shiftMask v)) v

/-- Amount added by `branchlessAltBody`. -/
def branchlessAltAddend (v : Int) : Int := and32 (not32 (cmpMask v)) v

theorem wrap64_add_left (a b : Int) : wrap64 (wrap64 a + b) = wrap64 (a + b) := by
  unfold wrap64; omega

theorem wrap64_of_fits {x : Int} (h0 : -2 ^ 63 ≤ x) (h1 : x < 2 ^ 63) : wrap64 x = x := by
  unfold wrap64; omega

theorem wrap32_of_fits {x : Int} (h0 : -2 ^ 31 ≤ x) (h1 : x < 2 ^ 31) : wrap32 x = x := by
  unfold wrap32; omega

theorem shiftMask_of_lt {v : Int} (h0 : -2 ^ 31 + 128 ≤ v) (h : v < 128) : shiftMask v = -1 := by
  unfold shiftMask sar32 sub32
  rw [wrap32_of_fits (by omega) (by omega), Int.shiftRight_eq_div_pow]
  norm_num
  omega

theorem shiftMask_of_ge {v : Int} (h : 128 ≤ v) (h1 : v < 2 ^ 31) : shiftMask v = 0 := by
  unfold shiftMask sar32 sub32
  rw [wrap32_of_fits (by omega) (by omega), Int.shiftRight_eq_div_pow]
  norm_num
  omega

theorem cmpMask_of_lt {v : Int} (h : v < 128) : cmpMask v = 0 := by
  unfold cmpMask neg32
  rw [if_neg (by omega)]; decide

theorem cmpMask_of_ge {v : Int} (h : 128 ≤ v) : cmpMask v = -1 := by
  unfold cmpMask neg32
  rw [if_pos (by omega)]; decide

theorem not32_zero : not32 0 = -1 := by decide

theorem not32_neg_one : not32 (-1) = 0 := by decide

theorem and32_zero_left (v : Int) : and32 0 v = 0 := by
  unfold and32
  have : toU32 0 = 0 := by decide
  rw [this]
  simp [Nat.land]
  decide

theorem and32_neg_one_left {v : Int} (h0 : 0 ≤ v) (h1 : v < 2 ^ 31) : and32 (-1) v = v := by
  unfold and32
  have e : toU32 (-1) = 2 ^ 32 - 1 := by decide
  have hv : toU32 v < 2 ^ 32 := by unfold toU32; omega
  have : Nat.land (toU32 (-1)) (toU32 v) = toU32 v := by
    rw [e]
    show (2 ^ 32 - 1) &&& toU32 v = toU32 v
    rw [Nat.and_comm, Nat.and_pow_two_sub_one_eq_mod, Nat.mod_eq_of_lt hv]
  rw [this]
  unfold toU32 wrap32
  omega

theorem branchlessAddend_of_lt {v : Int} (h0 : -2 ^ 31 + 128 ≤ v) (h : v < 128) :
    branchlessAddend v = 0 := by
  unfold branchlessAddend
  rw [shiftMask_of_lt h0 h, not32_neg_one, and32_zero_left]

theorem branchlessAddend_of_ge {v : Int} (h : 128 ≤ v) (h1 : v < 2 ^ 31) :
    branchlessAddend v = v := by
  unfold branchlessAddend
  rw [shiftMask_of_ge h h1, not32_zero, and32_neg_one_left (by omega) h1]

theorem branchlessAltAddend_of_lt {v : Int} (h0 : 0 ≤ v) (h : v < 128) :
    branchlessAltAddend v = v := by
  unfold branchlessAltAddend
  rw [cmpMask_of_lt h, not32_zero, and32_neg_one_left h0 (by omega)]

theorem branchlessAltAddend_of_ge {v : Int} (h : 128 ≤ v) : branchlessAltAddend v = 0 := by
  unfold branchlessAltAddend
  rw [cmpMask_of_ge h, not32_neg_one, and32_zero_left]

/-! ## Loop nests: simulation, invariants, closed form -/

theorem foldl_sim {σ τ : Type} (f : σ → τ) (b1 : σ → Int → σ) (b2 : τ → Int → τ)
    (h : ∀ s v, f (b1 s v) = b2 (f s) v) (data : List Int) (s : σ) :
    f (data.foldl b1 s) = data.foldl b2 (f s) := by
  induction data generalizing s with
  | nil => rfl
  | cons v t ih => simp only [List.foldl_cons]; rw [ih, h]

theorem iterate_sim {σ τ : Type} (f : σ → τ) (F : σ → σ) (G : τ → τ)
    (h : ∀ s, f (F s) = G (f s)) (n : Nat) (s : σ) : f (F^[n] s) = G^[n] (f s) := by
  induction n generalizing s with
  | zero => rfl
  | succ n ih => simp only [Function.iterate_succ_apply]; rw [ih, h]

theorem repeatOuter_sim {σ τ : Type} (f : σ → τ) (b1 : σ → Int → σ) (b2 : τ → Int → τ)
    (h : ∀ s v, f (b1 s v) = b2 (f s) v) (data : List Int) (R : Nat) (s : σ) :
    f (repeatOuter b1 data R s) = repeatOuter b2 data R (f s) := by
  unfold repeatOuter
  exact iterate_sim f _ _ (fun s => foldl_sim f b1 b2 h data s) R s

theorem repeatInner_sim {σ τ : Type} (f : σ → τ) (b1 : σ → Int → σ) (b2 : τ → Int → τ)
    (h : ∀ s v, f (b1 s v) = b2 (f s) v) (data : List Int) (R : Nat) (s : σ) :
    f (repeatInner b1 data R s) = repeatInner b2 data R (f s) := by
  unfold repeatInner
  exact foldl_sim f _ _ (fun s v => iterate_sim f _ _ (fun s => h s v) R s) data s

theorem foldl_add (g : Int → Int) (data : List Int) (s : Int) :
    data.foldl (fun s v => s + g v) s = s + (data.map g).sum := by
  induction data generalizing s with
  | nil => simp
  | cons v t ih => simp only [List.foldl_cons, List.map_cons, List.sum_cons]; rw [ih]; ring

theorem iterate_add (c : Int) (n : Nat) (s : Int) :
    (fun s => s + c)^[n] s = s + (n : Int) * c := by
  induction n generalizing s with
  | zero => simp
  | succ n ih => simp only [Function.iterate_succ_apply]; rw [ih]; push_cast; ring

theorem repeatOuter_add (g : Int → Int) (data : List Int) (R : Nat) (s : Int) :
    repeatOuter (fun s v => s + g v) data R s = s + (R : Int) * (data.map g).sum := by
  unfold repeatOuter
  have : (fun s => data.foldl (fun s v => s + g v) s) = fun s => s + (data.map g).sum :=
    funext (foldl_add g data)
  rw [this, iterate_add]

theorem repeatInner_add (g : Int → Int) (data : List Int) (R : Nat) (s : Int) :
    repeatInner (fun s v => s + g v) data R s = s + (R : Int) * (data.map g).sum := by
  unfold repeatInner
  have : (fun s v => (fun s => s + g v)^[R] s) = fun s v => s + (R : Int) * g v := by
    funext s v; exact iterate_add (g v) R s
  rw [this, foldl_add (fun v => (R : Int) * g v) data s, List.sum_map_mul_left]

/-! ## The three loop bodies -/

theorem branchBody_unbounded :
    branchBody addUnbounded = fun s v => s + branchAddend v := by
  funext s v
  unfold branchBody branchAddend addUnbounded
  split <;> simp

theorem branchlessBody_unbounded :
    branchlessBody addUnbounded = fun s v => s + branchlessAddend v := rfl

theorem branchlessAltBody_unbounded :
    branchlessAltBody addUnbounded = fun s v => s + branchlessAltAddend v := rfl

theorem branchBody_sim (s v : Int) :
    wrap64 (branchBody addUnbounded s v) = branchBody add64 (wrap64 s) v := by
  unfold branchBody addUnbounded add64
  split
  · rw [wrap64_add_left]
  · rfl

theorem branchlessBody_sim (s v : Int) :
    wrap64 (branchlessBody addUnbounded s v) = branchlessBody add64 (wrap64 s) v := by
  unfold branchlessBody addUnbounded add64
  simp only [wrap64_add_left]

theorem branchlessAltBody_sim (s v : Int) :
    wrap64 (branchlessAltBody addUnbounded s v) = branchlessAltBody add64 (wrap64 s) v := by
  unfold branchlessAltBody addUnbounded add64
  simp only [wrap64_add_left]

theorem wrap64_zero : wrap64 0 = 0 := by decide

theorem outer_unbounded (body : (Int → Int → Int) → Int → Int → Int) (g : Int → Int)
    (hb : body addUnbounded = fun s v => s + g v) (data : List Int) (R : Nat) :
    repeatOuter (body addUnbounded) data R 0 = (R : Int) * (data.map g).sum := by
  rw [hb, repeatOuter_add, zero_add]

theorem inner_unbounded (body : (Int → Int → Int) → Int → Int → Int) (g : Int → Int)
    (hb : body addUnbounded = fun s v => s + g v) (data : List Int) (R : Nat) :
    repeatInner (body addUnbounded) data R 0 = (R : Int) * (data.map g).sum := by
  rw [hb, repeatInner_add, zero_add]

theorem outer_machine (body : (Int → Int → Int) → Int → Int → Int) (g : Int → Int)
    (hb : body addUnbounded = fun s v => s + g v)
    (hsim : ∀ s v, wrap64 (body addUnbounded s v) = body add64 (wrap64 s) v)
    (data : List Int) (R : Nat) :
    repeatOuter (body add64) data R 0 = wrap64 ((R : Int) * (data.map g).sum) := by
  have h := repeatOuter_sim wrap64 (body addUnbounded) (body add64) hsim data R 0
  rw [wrap64_zero, outer_unbounded body g hb] at h
  exact h.symm

theorem inner_machine (body : (Int → Int → Int) → Int → Int → Int) (g : Int → Int)
    (hb : body addUnbounded = fun s v => s + g v)
    (hsim : ∀ s v, wrap64 (body addUnbounded s v) = body add64 (wrap64 s) v)
    (data : List Int) (R : Nat) :
    repeatInner (body add64) data R 0 = wrap64 ((R : Int) * (data.map g).sum) := by
  have h := repeatInner_sim wrap64 (body addUnbounded) (body add64) hsim data R 0
  rw [wrap64_zero, inner_unbounded body g hb] at h
  exact h.symm

/-! ## Sums of addends -/

theorem sum_branchAddend (data : List Int) : (data.map branchAddend).sum = sumGE data := by
  induction data with
  | nil => rfl
  | cons v t ih =>
    unfold sumGE at ih ⊢
    rw [List.map_cons, List.sum_cons, ih, List.filter_cons]
    unfold branchAddend
    by_cases h : 128 ≤ v <;> simp [h]

theorem sum_branchlessAddend (data : List Int) (h : ∀ v ∈ data, 0 ≤ v ∧ v < 256) :
    (data.map branchlessAddend).sum = sumGE data := by
  have e : data.map branchlessAddend = data.map branchAddend := by
    apply List.map_congr_left
    intro v hv
    obtain ⟨h0, h1⟩ := h v hv
    unfold branchAddend
    by_cases hc : 128 ≤ v
    · rw [branchlessAddend_of_ge hc (by omega), if_pos hc]
    · rw [branchlessAddend_of_lt (by omega) (by omega), if_neg hc]
  rw [e, sum_branchAddend]

theorem sum_lt_addend (data : List Int) :
    (data.map (fun v => if v < 128 then v else 0)).sum = sumLT data := by
  induction data with
  | nil => rfl
  | cons v t ih =>
    unfold sumLT at ih ⊢
    rw [List.map_cons, List.sum_cons, ih, List.filter_cons]
    by_cases h : v < 128 <;> simp [h]

theorem sum_branchlessAltAddend (data : List Int) (h : ∀ v ∈ data, 0 ≤ v ∧ v < 256) :
    (data.map branchlessAltAddend).sum = sumLT data := by
  have e : data.map branchlessAltAddend = data.map (fun v => if v < 128 then v else 0) := by
    apply List.map_congr_left
    intro v hv
    obtain ⟨h0, h1⟩ := h v hv
    by_cases hc : v < 128
    · rw [branchlessAltAddend_of_lt h0 hc]; simp only [if_pos hc]
    · rw [branchlessAltAddend_of_ge (by omega)]; simp only [if_neg hc]
  rw [e, sum_lt_addend]

theorem sumGE_add_sumLT (data : List Int) : sumGE data + sumLT data = data.sum := by
  induction data with
  | nil => rfl
  | cons v t ih =>
    unfold sumGE sumLT at ih ⊢
    rw [List.filter_cons, List.filter_cons, List.sum_cons, ← ih]
    by_cases h : 128 ≤ v
    · have h2 : ¬ v < 128 := by omega
      simp [h, h2]; ring
    · have h2 : v < 128 := by omega
      simp [h, h2]; ring

theorem sumGE_bounds (data : List Int) (h : ∀ v ∈ data, 0 ≤ v ∧ v < 256) :
    0 ≤ sumGE data ∧ sumGE data ≤ 255 * (data.length : Int) := by
  induction data with
  | nil => simp [sumGE]
  | cons v t ih =>
    have ht := ih (fun w hw => h w (List.mem_cons_of_mem _ hw))
    obtain ⟨h0, h1⟩ := h v (List.mem_cons_self _ _)
    unfold sumGE at ht ⊢
    rw [List.filter_cons]
    by_cases hc : 128 ≤ v
    · simp only [hc, decide_True, if_true, List.sum_cons, List.length_cons]; push_cast; omega
    · simp only [hc, decide_False, List.length_cons]; push_cast; omega

theorem sumLT_bounds (data : List Int) (h : ∀ v ∈ data, 0 ≤ v ∧ v < 256) :
    0 ≤ sumLT data ∧ sumLT data ≤ 255 * (data.length : Int) := by
  induction data with
  | nil => simp [sumLT]
  | cons v t ih =>
    have ht := ih (fun w hw => h w (List.mem_cons_of_mem _ hw))
    obtain ⟨h0, h1⟩ := h v (List.mem_cons_self _ _)
    unfold sumLT at ht ⊢
    rw [List.filter_cons]
    by_cases hc : v < 128
    · simp only [hc, decide_True, if_true, List.sum_cons, List.length_cons]; push_cast; omega
    · simp only [hc, decide_False, List.length_cons]; push_cast; omega

/-! ## Data generation -/

theorem generate_length (rand : Nat → Int) (n : Nat) : (generate rand n).length = n := by
  induction n with
  | zero => rfl
  | succ n ih => simp [generate, ih]

theorem generate_getElem (rand : Nat → Int) (n c : Nat) (hc : c < n) :
    (generate rand n)[c]? = some (Int.tmod (rand c) 256) := by
  induction n with
  | zero => omega
  | succ n ih =>
    unfold generate
    by_cases hlt : c < n
    · rw [List.getElem?_append_left (by rw [generate_length]; exact hlt)]
      exact ih hlt
    · have e : c = (generate rand n).length := by rw [generate_length]; omega
      rw [e, List.getElem?_concat_length, generate_length]

theorem tmod_draw {x : Int} (h : 0 ≤ x) :
    Int.tmod x 256 = x % 256 ∧ 0 ≤ Int.tmod x 256 ∧ Int.tmod x 256 < 256 := by
  rw [Int.tmod_eq_emod h (by decide)]
  omega

theorem generate_range (rand : Nat → Int) (h : ∀ k, 0 ≤ rand k) (n : Nat) :
    ∀ e ∈ generate rand n, 0 ≤ e ∧ e < 256 := by
  induction n with
  | zero => intro e he; simp [generate] at he
  | succ n ih =>
    intro e he
    unfold generate at he
    rcases List.mem_append.mp he with h1 | h1
    · exact ih e h1
    · rw [List.mem_singleton.mp h1]
      exact (tmod_draw (h n)).2

theorem sort_perm (data : List Int) : (sort data).Perm data :=
  List.perm_insertionSort _ data

theorem sort_range (data : List Int) (h : ∀ e ∈ data, 0 ≤ e ∧ e < 256) :
    ∀ e ∈ sort data, 0 ≤ e ∧ e < 256 :=
  fun e he => h e ((sort_perm data).mem_iff.mp he)

theorem sort_length (data : List Int) : (sort data).length = data.length :=
  List.length_insertionSort _ data

theorem sort_sorted (data : List Int) : List.Sorted (fun a b => a ≤ b) (sort data) :=
  List.sorted_insertionSort _ data

/-! ## Histories -/

theorem branchLoop_closed (data : List Int) (R : Nat) :
    branchLoop add64 data R = wrap64 ((R : Int) * (data.map branchAddend).sum) :=
  outer_machine branchBody branchAddend branchBody_unbounded branchBody_sim data R

theorem branchLoopLI_closed (data : List Int) (R : Nat) :
    branchLoopLI add64 data R = wrap64 ((R : Int) * (data.map branchAddend).sum) :=
  inner_machine branchBody branchAddend branchBody_unbounded branchBody_sim data R

theorem branchlessLoop_closed (data : List Int) (R : Nat) :
    branchlessLoop add64 data R = wrap64 ((R : Int) * (data.map branchlessAddend).sum) :=
  outer_machine branchlessBody branchlessAddend branchlessBody_unbounded branchlessBody_sim data R

theorem branchlessLoopLI_closed (data : List Int) (R : Nat) :
    branchlessLoopLI add64 data R = wrap64 ((R : Int) * (data.map branchlessAddend).sum) :=
  inner_machine branchlessBody branchlessAddend branchlessBody_unbounded branchlessBody_sim data R

theorem branchlessAltLoop_closed (data : List Int) (R : Nat) :
    branchlessAltLoop add64 data R = wrap64 ((R : Int) * (data.map branchlessAltAddend).sum) :=
  outer_machine branchlessAltBody branchlessAltAddend branchlessAltBody_unbounded
    branchlessAltBody_sim data R

theorem branchlessAltLoopLI_closed (data : List Int) (R : Nat) :
    branchlessAltLoopLI add64 data R = wrap64 ((R : Int) * (data.map branchlessAltAddend).sum) :=
  inner_machine branchlessAltBody branchlessAltAddend branchlessAltBody_unbounded
    branchlessAltBody_sim data R

theorem sum_map_perm (g : Int → Int) {data shuffled : List Int} (p : data.Perm shuffled) :
    (data.map g).sum = (shuffled.map g).sum :=
  (p.map g).sum_eq

theorem wrap64_mul_of_fits (R : Nat) (S : Int) (h0 : 0 ≤ S) (h : (R : Int) * S < 2 ^ 63) :
    wrap64 ((R : Int) * S) = (R : Int) * S := by
  apply wrap64_of_fits _ h
  have : 0 ≤ (R : Int) * S := mul_nonneg (Int.ofNat_nonneg R) h0
  omega

theorem sumGE_nonneg (data : List Int) : 0 ≤ sumGE data := by
  unfold sumGE
  apply List.sum_nonneg
  intro x hx
  have := (List.mem_filter.mp hx).2
  simp at this
  omega

/-! ## Claims -/

/-- C1: the timed loop of `branchRandom` / `branchSorted` ends with the accumulator equal to
`R` times the sum of the elements that are at least 128, whenever that product fits the
64-bit accumulator; on the sample array with `R = 1` it ends with 713. -/
theorem branchLoop_eq_sumGE (data : List Int) (R : Nat)
    (hfit : (R : Int) * sumGE data < 2 ^ 63) :
    branchLoop add64 data R = (R : Int) * sumGE data ∧ branchLoop add64 sample 1 = 713 := by
  constructor
  · rw [branchLoop_closed, sum_branchAddend]
    exact wrap64_mul_of_fits R _ (sumGE_nonneg data) hfit
  · rw [branchLoop_closed, sum_branchAddend]; decide

/-- Witness for C1 on the sample array with one pass. -/
theorem branchLoop_eq_sumGE_witness :
    ((1 : Nat) : Int) * sumGE sample < 2 ^ 63 ∧
      branchLoop add64 sample 1 = ((1 : Nat) : Int) * sumGE sample ∧ sumGE sample = 713 :=
  ⟨by decide, (branchLoop_eq_sumGE sample 1 (by decide)).1, by decide⟩

/-- C2: on an array of values in `[0, 256)` the shift-mask loop ends with the same accumulator
as the branching loop, for every repeat count and in both loop orders; for each element the
mask is all-ones below 128 and all-zeros from 128 on, and `~t & v` is `v` from 128 on and 0
below. -/
theorem branchless_eq_branch (data : List Int) (R : Nat)
    (h : ∀ v ∈ data, 0 ≤ v ∧ v < 256) :
    branchlessLoop add64 data R = branchLoop add64 data R ∧
      branchlessLoopLI add64 data R = branchLoopLI add64 data R ∧
      ∀ v ∈ data, shiftMask v = (if v < 128 then -1 else 0) ∧
        and32 (not32 (shiftMask v)) v = (if v ≥ 128 then v else 0) := by
  refine ⟨?_, ?_, ?_⟩
  · rw [branchlessLoop_closed, branchLoop_closed, sum_branchlessAddend data h, sum_branchAddend]
  · rw [branchlessLoopLI_closed, branchLoopLI_closed, sum_branchlessAddend data h,
      sum_branchAddend]
  · intro v hv
    obtain ⟨h0, h1⟩ := h v hv
    by_cases hc : v < 128
    · have hn : ¬ v ≥ 128 := by omega
      rw [if_pos hc, if_neg hn]
      exact ⟨shiftMask_of_lt (by omega) hc, branchlessAddend_of_lt (by omega) hc⟩
    · have hp : v ≥ 128 := by omega
      rw [if_neg hc, if_pos hp]
      exact ⟨shiftMask_of_ge hp (by omega), branchlessAddend_of_ge hp (by omega)⟩

/-- Witness for C2 on the sample array with three passes. -/
theorem branchless_eq_branch_witness :
    (∀ v ∈ sample, 0 ≤ v ∧ v < 256) ∧
      branchlessLoop add64 sample 3 = branchLoop add64 sample 3 ∧
      branchlessLoopLI add64 sample 3 = branchLoopLI add64 sample 3 :=
  ⟨by decide, (branchless_eq_branch sample 3 (by decide)).1,
    (branchless_eq_branch sample 3 (by decide)).2.1⟩

/-- C3: for every array and every repeat count, each loop-interchanged timed loop ends with
the same accumulator as the loop with the repeat loop outermost, for the branching, the
shift-mask and the comparison-to-mask bodies; hence each of the five loop-interchanged
benchmark functions prints the checksum of its counterpart when both see the same draws. -/
theorem interchange_preserves_checksum (data : List Int) (R : Nat) (rand : Nat → Int) :
    (branchLoopLI add64 data R = branchLoop add64 data R ∧
      branchlessLoopLI add64 data R = branchlessLoop add64 data R ∧
      branchlessAltLoopLI add64 data R = branchlessAltLoop add64 data R) ∧
    (branchRandomLI rand = branchRandom rand ∧ branchSortedLI rand = branchSorted rand ∧
      branchlessRandomLI rand = branchlessRandom rand ∧
      branchlessSortedLI rand = branchlessSorted rand ∧
      branchlessSortedAltLI rand = branchlessSortedAlt rand) := by
  refine ⟨⟨?_, ?_, ?_⟩, ?_, ?_, ?_, ?_, ?_⟩
  · rw [branchLoopLI_closed, branchLoop_closed]
  · rw [branchlessLoopLI_closed, branchlessLoop_closed]
  · rw [branchlessAltLoopLI_closed, branchlessAltLoop_closed]
  · unfold branchRandomLI branchRandom
    rw [branchLoopLI_closed, branchLoop_closed]
  · unfold branchSortedLI branchSorted
    rw [branchLoopLI_closed, branchLoop_closed]
  · unfold branchlessRandomLI branchlessRandom
    rw [branchlessLoopLI_closed, branchlessLoop_closed]
  · unfold branchlessSortedLI branchlessSorted
    rw [branchlessLoopLI_closed, branchlessLoop_closed]
  · unfold branchlessSortedAltLI branchlessSortedAlt
    rw [branchlessAltLoopLI_closed, branchlessAltLoop_closed]

/-- C4: for every repeat count, each of the six timed loops ends with the same accumulator on
two arrays that are permutations of each other, hence on the array sorted ascending and on
the array as generated, so that each `Sorted` benchmark function prints the checksum of its
`Random` twin when both see the same draws; the sample array sorts to
`[0,5,10,127,128,130,200,255]` and the sum of its elements that are at least 128 is 713
before and after. -/
theorem permutation_preserves_checksum (data shuffled : List Int) (R : Nat) (rand : Nat → Int)
    (p : shuffled.Perm data) :
    (branchLoop add64 shuffled R = branchLoop add64 data R ∧
      branchlessLoop add64 shuffled R = branchlessLoop add64 data R ∧
      branchlessAltLoop add64 shuffled R = branchlessAltLoop add64 data R ∧
      branchLoopLI add64 shuffled R = branchLoopLI add64 data R ∧
      branchlessLoopLI add64 shuffled R = branchlessLoopLI add64 data R ∧
      branchlessAltLoopLI add64 shuffled R = branchlessAltLoopLI add64 data R) ∧
    (branchLoop add64 (sort data) R = branchLoop add64 data R ∧
      branchlessLoop add64 (sort data) R = branchlessLoop add64 data R ∧
      branchlessAltLoop add64 (sort data) R = branchlessAltLoop add64 data R ∧
      branchLoopLI add64 (sort data) R = branchLoopLI add64 data R ∧
      branchlessLoopLI add64 (sort data) R = branchlessLoopLI add64 data R ∧
      branchlessAltLoopLI add64 (sort data) R = branchlessAltLoopLI add64 data R) ∧
    (branchSorted rand = branchRandom rand ∧ branchlessSorted rand = branchlessRandom rand ∧
      branchSortedLI rand = branchRandomLI rand ∧
      branchlessSortedLI rand = branchlessRandomLI rand) ∧
    (sort sample = [0, 5, 10, 127, 128, 130, 200, 255] ∧
      sumGE sample = 713 ∧ sumGE (sort sample) = 713 ∧
      branchLoop add64 sample 1 = 713 ∧ branchLoop add64 (sort sample) 1 = 713) := by
  have q := sort_perm data
  have r := sort_perm (generate rand arraySize)
  refine ⟨⟨?_, ?_, ?_, ?_, ?_, ?_⟩, ⟨?_, ?_, ?_, ?_, ?_, ?_⟩, ⟨?_, ?_, ?_, ?_⟩, ?_⟩
  · rw [branchLoop_closed, branchLoop_closed, sum_map_perm _ p]
  · rw [branchlessLoop_closed, branchlessLoop_closed, sum_map_perm _ p]
  · rw [branchlessAltLoop_closed, branchlessAltLoop_closed, sum_map_perm _ p]
  · rw [branchLoopLI_closed, branchLoopLI_closed, sum_map_perm _ p]
  · rw [branchlessLoopLI_closed, branchlessLoopLI_closed, sum_map_perm _ p]
  · rw [branchlessAltLoopLI_closed, branchlessAltLoopLI_closed, sum_map_perm _ p]
  · rw [branchLoop_closed, branchLoop_closed, sum_map_perm _ q]
  · rw [branchlessLoop_closed, branchlessLoop_closed, sum_map_perm _ q]
  · rw [branchlessAltLoop_closed, branchlessAltLoop_closed, sum_map_perm _ q]
  · rw [branchLoopLI_closed, branchLoopLI_closed, sum_map_perm _ q]
  · rw [branchlessLoopLI_closed, branchlessLoopLI_closed, sum_map_perm _ q]
  · rw [branchlessAltLoopLI_closed, branchlessAltLoopLI_closed, sum_map_perm _ q]
  · unfold branchSorted branchRandom
    rw [branchLoop_closed, branchLoop_closed, sum_map_perm _ r]
  · unfold branchlessSorted branchlessRandom
    rw [branchlessLoop_closed, branchlessLoop_closed, sum_map_perm _ r]
  · unfold branchSortedLI branchRandomLI
    rw [branchLoopLI_closed, branchLoopLI_closed, sum_map_perm _ r]
  · unfold branchlessSortedLI branchlessRandomLI
    rw [branchlessLoopLI_closed, branchlessLoopLI_closed, sum_map_perm _ r]
  · have e : sort sample = [0, 5, 10, 127, 128, 130, 200, 255] := by decide
    refine ⟨e, by decide, by rw [e]; decide, ?_, ?_⟩
    · rw [branchLoop_closed, sum_branchAddend]; decide
    · rw [e, branchLoop_closed, sum_branchAddend]; decide

/-- Witness for C4: the sample array reversed is a permutation of the sample array. -/
theorem permutation_preserves_checksum_witness :
    sample.reverse.Perm sample ∧
      branchlessAltLoopLI add64 sample.reverse 2 = branchlessAltLoopLI add64 sample 2 :=
  ⟨List.reverse_perm sample,
    (permutation_preserves_checksum sample sample.reverse 2 sevens
      (List.reverse_perm sample)).1.2.2.2.2.2⟩

/-- C5, counterexample: on the sample array (values in `[0, 256)`) with one pass the
comparison-to-mask loop ends with 142 in both loop orders, while the elements that are at
least 128 sum to 713. -/
theorem alt_contract_counterexample :
    (∀ v ∈ sample, 0 ≤ v ∧ v < 256) ∧ ((1 : Nat) : Int) * sumGE sample = 713 ∧
      branchlessAltLoop add64 sample 1 = 142 ∧ branchlessAltLoopLI add64 sample 1 = 142 ∧
      branchlessAltLoop add64 sample 1 ≠ ((1 : Nat) : Int) * sumGE sample ∧
      branchlessAltLoopLI add64 sample 1 ≠ ((1 : Nat) : Int) * sumGE sample := by
  have e1 : branchlessAltLoop add64 sample 1 = 142 := by decide
  have e2 : branchlessAltLoopLI add64 sample 1 = 142 := by decide
  have e3 : ((1 : Nat) : Int) * sumGE sample = 713 := by decide
  refine ⟨by decide, e3, e1, e2, ?_, ?_⟩
  · rw [e1, e3]; decide
  · rw [e2, e3]; decide

/-- C5, amended: on an array of values in `[0, 256)` the comparison-to-mask loop, in both loop
orders, ends with the accumulator equal to `R` times the sum of the elements that are below
128, whenever that product fits the 64-bit accumulator; on the sample array with `R = 1` it
ends with 142 in both loop orders. -/
theorem alt_contract_amended (data : List Int) (R : Nat)
    (h : ∀ v ∈ data, 0 ≤ v ∧ v < 256) (hfit : (R : Int) * sumLT data < 2 ^ 63) :
    branchlessAltLoop add64 data R = (R : Int) * sumLT data ∧
      branchlessAltLoopLI add64 data R = (R : Int) * sumLT data ∧
      branchlessAltLoop add64 sample 1 = 142 ∧ branchlessAltLoopLI add64 sample 1 = 142 := by
  refine ⟨?_, ?_, by decide, by decide⟩
  · rw [branchlessAltLoop_closed, sum_branchlessAltAddend data h]
    exact wrap64_mul_of_fits R _ (sumLT_bounds data h).1 hfit
  · rw [branchlessAltLoopLI_closed, sum_branchlessAltAddend data h]
    exact wrap64_mul_of_fits R _ (sumLT_bounds data h).1 hfit

/-- Witness for the amended C5 on the sample array with two passes. -/
theorem alt_contract_amended_witness :
    (∀ v ∈ sample, 0 ≤ v ∧ v < 256) ∧ ((2 : Nat) : Int) * sumLT sample < 2 ^ 63 ∧
      branchlessAltLoop add64 sample 2 = ((2 : Nat) : Int) * sumLT sample :=
  ⟨by decide, by decide, (alt_contract_amended sample 2 (by decide) (by decide)).1⟩

/-- C6, counterexample: on the sample array (values in `[0, 256)`) with one pass the
comparison-to-mask loop ends with 142 and the shift-mask loop with 713: they differ by 571. -/
theorem alt_differs_by_one_counterexample :
    (∀ v ∈ sample, 0 ≤ v ∧ v < 256) ∧
      branchlessAltLoop add64 sample 1 = 142 ∧ branchlessLoop add64 sample 1 = 713 ∧
      ¬ (|branchlessAltLoop add64 sample 1 - branchlessLoop add64 sample 1| ≤ 1) := by
  have e1 : branchlessAltLoop add64 sample 1 = 142 := by decide
  have e2 : branchlessLoop add64 sample 1 = 713 := by decide
  refine ⟨by decide, e1, e2, ?_⟩
  rw [e1, e2]; decide

/-- C6, amended: on an array of `N` values in `[0, 256)` with `255 * N * R` fitting the 64-bit
accumulator, the comparison-to-mask checksum minus the shift-mask checksum is `R` times (the
sum of the elements below 128 minus the sum of the elements that are at least 128), so the two
differ by at most `255 * N * R`; that bound is reached on an array of 255s. -/
theorem alt_minus_shift (data : List Int) (R : Nat)
    (h : ∀ v ∈ data, 0 ≤ v ∧ v < 256)
    (hfit : 255 * (data.length : Int) * (R : Int) < 2 ^ 63) :
    branchlessAltLoop add64 data R - branchlessLoop add64 data R
        = (R : Int) * (sumLT data - sumGE data) ∧
      |branchlessAltLoop add64 data R - branchlessLoop add64 data R|
        ≤ 255 * (data.length : Int) * (R : Int) ∧
      |branchlessAltLoop add64 allMax 1 - branchlessLoop add64 allMax 1|
        = 255 * (allMax.length : Int) * ((1 : Nat) : Int) := by
  obtain ⟨l0, l1⟩ := sumLT_bounds data h
  obtain ⟨g0, g1⟩ := sumGE_bounds data h
  have hR : (0 : Int) ≤ (R : Int) := Int.ofNat_nonneg R
  have bl : (R : Int) * sumLT data ≤ (R : Int) * (255 * (data.length : Int)) :=
    mul_le_mul_of_nonneg_left l1 hR
  have bg : (R : Int) * sumGE data ≤ (R : Int) * (255 * (data.length : Int)) :=
    mul_le_mul_of_nonneg_left g1 hR
  have nl : 0 ≤ (R : Int) * sumLT data := mul_nonneg hR l0
  have ng : 0 ≤ (R : Int) * sumGE data := mul_nonneg hR g0
  have comm : (R : Int) * (255 * (data.length : Int)) = 255 * (data.length : Int) * (R : Int) := by
    ring
  have ea : branchlessAltLoop add64 data R = (R : Int) * sumLT data := by
    rw [branchlessAltLoop_closed, sum_branchlessAltAddend data h]
    exact wrap64_mul_of_fits R _ l0 (by omega)
  have es : branchlessLoop add64 data R = (R : Int) * sumGE data := by
    rw [branchlessLoop_closed, sum_branchlessAddend data h]
    exact wrap64_mul_of_fits R _ g0 (by omega)
  refine ⟨?_, ?_, by decide⟩
  · rw [ea, es]; ring
  · rw [ea, es, abs_le]; constructor <;> omega

/-- Witness for the amended C6 on the sample array with three passes. -/
theorem alt_minus_shift_witness :
    (∀ v ∈ sample, 0 ≤ v ∧ v < 256) ∧
      255 * (sample.length : Int) * ((3 : Nat) : Int) < 2 ^ 63 ∧
      branchlessAltLoop add64 sample 3 - branchlessLoop add64 sample 3
        = ((3 : Nat) : Int) * (sumLT sample - sumGE sample) :=
  ⟨by decide, by decide, (alt_minus_shift sample 3 (by decide) (by decide)).1⟩

/-- C7: for a value in `[0, 256)` the comparison mask `-(v >= 128)` (all-ones when the
comparison holds, 0 when it does not) is the bitwise complement of the shift mask
`(v - 128) >> 31`. -/
theorem cmpMask_eq_not_shiftMask (v : Int) (h0 : 0 ≤ v) (h1 : v < 256) :
    cmpMask v = not32 (shiftMask v) ∧ cmpMask v = (if v ≥ 128 then -1 else 0) := by
  by_cases hc : 128 ≤ v
  · rw [cmpMask_of_ge hc, shiftMask_of_ge hc (by omega), not32_zero, if_pos hc]
    exact ⟨rfl, rfl⟩
  · rw [cmpMask_of_lt (by omega), shiftMask_of_lt (by omega) (by omega), not32_neg_one,
      if_neg hc]
    exact ⟨rfl, rfl⟩

/-- Witness for C7 at the values 128 and 127. -/
theorem cmpMask_eq_not_shiftMask_witness :
    ((0 : Int) ≤ 128 ∧ (128 : Int) < 256 ∧ cmpMask 128 = not32 (shiftMask 128)) ∧
      ((0 : Int) ≤ 127 ∧ (127 : Int) < 256 ∧ cmpMask 127 = not32 (shiftMask 127)) :=
  ⟨⟨by decide, by decide, (cmpMask_eq_not_shiftMask 128 (by decide) (by decide)).1⟩,
    ⟨by decide, by decide, (cmpMask_eq_not_shiftMask 127 (by decide) (by decide)).1⟩⟩

theorem sumLT_replicate (n : Nat) : sumLT (List.replicate n 127) = 127 * (n : Int) := by
  induction n with
  | zero => rfl
  | succ n ih =>
    unfold sumLT at ih ⊢
    rw [List.replicate_succ, List.filter_cons]
    simp only [show decide ((127 : Int) < 128) = true from by decide, if_true, List.sum_cons, ih]
    push_cast
    ring

theorem replicate_range (n : Nat) : ∀ v ∈ List.replicate n (127 : Int), 0 ≤ v ∧ v < 256 := by
  intro v hv
  rw [List.eq_of_mem_replicate hv]
  decide

theorem alt_wrapped (data : List Int) (R : Nat) (h : ∀ v ∈ data, 0 ≤ v ∧ v < 256) :
    branchlessAltLoop add64 data R = wrap64 ((R : Int) * sumLT data) ∧
      branchlessAltLoopLI add64 data R = wrap64 ((R : Int) * sumLT data) := by
  rw [branchlessAltLoop_closed, branchlessAltLoopLI_closed, sum_branchlessAltAddend data h]
  exact ⟨rfl, rfl⟩

/-- C9, counterexample: without a bound on the total the 64-bit accumulator wraps. On the
array of 17,000,000 elements equal to 127 (all in `[0, 256)`) with `R = 4294967295`, a value
an `unsigned` counter reaches, `R` times the sum of the elements below 128 is
9272834389905000000, above `2^63`, while the comparison-to-mask loop ends, in both loop
orders, with that number less `2^64`; the same happens on `[127]` with `R = 2^63`. -/
theorem alt_unbounded_counterexample :
    (∀ v ∈ longArray, 0 ≤ v ∧ v < 256) ∧
      ((4294967295 : Nat) : Int) * sumLT longArray = 9272834389905000000 ∧
      branchlessAltLoop add64 longArray 4294967295 = 9272834389905000000 - 2 ^ 64 ∧
      branchlessAltLoopLI add64 longArray 4294967295 = 9272834389905000000 - 2 ^ 64 ∧
      branchlessAltLoop add64 longArray 4294967295
        ≠ ((4294967295 : Nat) : Int) * sumLT longArray ∧
      branchlessAltLoopLI add64 longArray 4294967295
        ≠ ((4294967295 : Nat) : Int) * sumLT longArray ∧
      (∀ v ∈ [(127 : Int)], 0 ≤ v ∧ v < 256) ∧
      branchlessAltLoop add64 [127] (2 ^ 63) ≠ ((2 ^ 63 : Nat) : Int) * sumLT [127] := by
  have hr : ∀ v ∈ longArray, 0 ≤ v ∧ v < 256 := replicate_range 17000000
  have hs : sumLT longArray = 2159000000 := by
    unfold longArray
    rw [sumLT_replicate]
    decide
  have h1 : ∀ v ∈ [(127 : Int)], 0 ≤ v ∧ v < 256 := by decide
  have s1 : sumLT [127] = 127 := by decide
  obtain ⟨e1, e2⟩ := alt_wrapped longArray 4294967295 hr
  have e3 := (alt_wrapped [127] (2 ^ 63) h1).1
  rw [hs] at e1 e2
  rw [s1] at e3
  refine ⟨hr, ?_, ?_, ?_, ?_, ?_, h1, ?_⟩
  · rw [hs]; decide
  · rw [e1]; decide
  · rw [e2]; decide
  · rw [e1, hs]; decide
  · rw [e2, hs]; decide
  · rw [e3, s1]; decide

/-- C9, amended: on an array of values in `[0, 256)` and for a repeat count `R` such that `R`
times the sum of all elements is below `2^63`, the comparison-to-mask loop, in both loop
orders, ends with `R` times the sum of the elements below 128, and its checksum plus the
shift-mask checksum is `R` times the sum of all elements. -/
theorem alt_selects_below_threshold (data : List Int) (R : Nat)
    (h : ∀ v ∈ data, 0 ≤ v ∧ v < 256) (hfit : (R : Int) * data.sum < 2 ^ 63) :
    branchlessAltLoop add64 data R = (R : Int) * sumLT data ∧
      branchlessAltLoopLI add64 data R = (R : Int) * sumLT data ∧
      branchlessAltLoop add64 data R + branchlessLoop add64 data R = (R : Int) * data.sum ∧
      branchlessAltLoopLI add64 data R + branchlessLoopLI add64 data R
        = (R : Int) * data.sum := by
  obtain ⟨l0, -⟩ := sumLT_bounds data h
  obtain ⟨g0, -⟩ := sumGE_bounds data h
  have hR : (0 : Int) ≤ (R : Int) := Int.ofNat_nonneg R
  have tot : (R : Int) * data.sum = (R : Int) * sumGE data + (R : Int) * sumLT data := by
    rw [← sumGE_add_sumLT]; ring
  have nl : 0 ≤ (R : Int) * sumLT data := mul_nonneg hR l0
  have ng : 0 ≤ (R : Int) * sumGE data := mul_nonneg hR g0
  have ea : wrap64 ((R : Int) * sumLT data) = (R : Int) * sumLT data :=
    wrap64_mul_of_fits R _ l0 (by omega)
  have es : wrap64 ((R : Int) * sumGE data) = (R : Int) * sumGE data :=
    wrap64_mul_of_fits R _ g0 (by omega)
  refine ⟨?_, ?_, ?_, ?_⟩
  · rw [branchlessAltLoop_closed, sum_branchlessAltAddend data h, ea]
  · rw [branchlessAltLoopLI_closed, sum_branchlessAltAddend data h, ea]
  · rw [branchlessAltLoop_closed, sum_branchlessAltAddend data h, ea,
      branchlessLoop_closed, sum_branchlessAddend data h, es, tot]; ring
  · rw [branchlessAltLoopLI_closed, sum_branchlessAltAddend data h, ea,
      branchlessLoopLI_closed, sum_branchlessAddend data h, es, tot]; ring

/-- Witness for the amended C9 on the sample array with one pass: 142 + 713 = 855. -/
theorem alt_selects_below_threshold_witness :
    (∀ v ∈ sample, 0 ≤ v ∧ v < 256) ∧ ((1 : Nat) : Int) * sample.sum < 2 ^ 63 ∧
      branchlessAltLoop add64 sample 1 + branchlessLoop add64 sample 1
        = ((1 : Nat) : Int) * sample.sum ∧ sample.sum = 855 :=
  ⟨by decide, by decide, (alt_selects_below_threshold sample 1 (by decide) (by decide)).2.2.1,
    by decide⟩

/-- C8: when every draw of the random source is non-negative, the generation loop run with
the array size of the program gives exactly 32768 elements, element `c` being draw `c` modulo
256, so every element lies in `[0, 256)`; sorting ascending keeps the length and the range
(and gives a sorted permutation of the generated array). -/
theorem generate_spec (rand : Nat → Int) (h : ∀ k, 0 ≤ rand k) :
    (generate rand arraySize).length = 32768 ∧
      (∀ c, c < 32768 → (generate rand arraySize)[c]? = some (rand c % 256)) ∧
      (∀ e ∈ generate rand arraySize, 0 ≤ e ∧ e < 256) ∧
      (sort (generate rand arraySize)).length = 32768 ∧
      (∀ e ∈ sort (generate rand arraySize), 0 ≤ e ∧ e < 256) ∧
      List.Sorted (fun a b => a ≤ b) (sort (generate rand arraySize)) ∧
      (sort (generate rand arraySize)).Perm (generate rand arraySize) := by
  refine ⟨generate_length rand arraySize, ?_, generate_range rand h arraySize, ?_,
    sort_range _ (generate_range rand h arraySize), sort_sorted _, sort_perm _⟩
  · intro c hc
    rw [generate_getElem rand arraySize c hc, (tmod_draw (h c)).1]
  · rw [sort_length]
    exact generate_length rand arraySize

/-- Witness for C8 on the stream of draws 0, 7, 14, ... -/
theorem generate_spec_witness :
    (∀ k, 0 ≤ sevens k) ∧ (generate sevens arraySize).length = 32768 ∧
      (∀ e ∈ sort (generate sevens arraySize), 0 ≤ e ∧ e < 256) :=
  ⟨fun k => mul_nonneg (by decide) (Int.ofNat_nonneg k),
    (generate_spec sevens (fun k => mul_nonneg (by decide) (Int.ofNat_nonneg k))).1,
    (generate_spec sevens (fun k => mul_nonneg (by decide) (Int.ofNat_nonneg k))).2.2.2.2.1⟩

end BranchPrediction
